import Mathlib

/-
Verification of the staggered concurrent race scheduler of
src/src/019_advanced_scheduling_and_executors.py
(functions run_staggered_race and the fallback shim it delegates to).

Shallow embedding.  A candidate task is identified with the terminal
outcome its coroutine would produce if run to completion, the scheduler
nondeterminism of the event loop is made explicit as a completion
schedule (the successive done batches of asyncio.wait, each in the
iteration order of that set), and cooperative cancellation responses are
a further explicit parameter. -/

/-- Terminal outcome of a candidate task when it runs to completion on
its own: a successful value, an ordinary exception (Python class
Exception, caught by the except clause at line 196), or an error outside
that class (a BaseException such as an externally injected
CancelledError, which the except clause does not catch). -/
inductive TaskOutcome where
  | success (v : String)
  | failure (e : String)
  | baseError (e : String)
deriving DecidableEq, Repr

/-- How a still-running task reacts when the race cancels it during
cleanup: it unwinds with CancelledError, raises some other error while
unwinding, or completes anyway despite the advisory cancel.  All three
are swallowed by gather with return_exceptions set (lines 200 and 208). -/
inductive CancelResponse where
  | ack
  | noisyError (e : String)
  | finished (v : String)
deriving DecidableEq, Repr

/-- What the race call as a whole does: return the winning value, raise
the RuntimeError of line 203, let a non-Exception error of a candidate
propagate, or raise the ValueError of line 163 for an empty input. -/
inductive RaceResult where
  | value (v : String)
  | aggregateError (msg : String)
  | propagated (e : String)
  | configError (msg : String)
deriving DecidableEq, Repr

/-- Status of one candidate task as observable from outside. -/
inductive FinalStatus where
  | running
  | succeeded (v : String)
  | failed (e : String)
  | baseErrored (e : String)
  | cancelled
deriving DecidableEq, Repr

/-- Launch loop, lines 181 to 184 of the source: create the task for
each factory in list order and sleep the stagger interval before the
next creation.  The loop consults nothing else, so the trace of
(candidate index, start time) pairs depends only on the list length and
the interval; candidate i starts at time i times interval.  Polymorphic
in the element type because the loop never inspects the factory. -/
def launchStarts {α : Type} : List α → ℚ → Nat → ℚ → List (Nat × ℚ)
  | [], _, _, _ => []
  | _ :: rest, interval, idx, now =>
      (idx, now) :: launchStarts rest interval (idx + 1) (now + interval)

/-- The default outcome used by list lookup; a candidate index produced
by a valid completion schedule is always in range, so this default is
never reached in a valid run. -/
def defaultOutcome : TaskOutcome := .failure ""

/-- One pass of the for loop over a completed batch, lines 193 to 201:
task.result() is consulted for each done task in the iteration order of
the done set; an ordinary exception is skipped (continue), a success
concludes the race with that value, and any other error propagates. -/
def scanBatch (outcomes : List TaskOutcome) : List Nat → Option RaceResult
  | [] => none
  | i :: rest =>
    match outcomes.getD i defaultOutcome with
    | .success v => some (.value v)
    | .baseError e => some (.propagated e)
    | .failure _ => scanBatch outcomes rest

/-- The same scan over the concatenation of all batches; the while loop
of lines 188 to 201 is equivalent to this scan because ordinary failures
are merely skipped while a success or a non-Exception error stops the
loop at once, and exhausting all completions raises the RuntimeError of
line 203. -/
def scanJoin (outcomes : List TaskOutcome) : List Nat → RaceResult
  | [] => .aggregateError "All staggered tasks failed"
  | i :: rest =>
    match outcomes.getD i defaultOutcome with
    | .success v => .value v
    | .baseError e => .propagated e
    | .failure _ => scanJoin outcomes rest

/-- Map a terminal outcome to the task status it leaves behind. -/
def applyOutcome : TaskOutcome → FinalStatus
  | .success v => .succeeded v
  | .failure e => .failed e
  | .baseError e => .baseErrored e

/-- Record that every task of a completed batch has reached its own
terminal state (it is in the done set of asyncio.wait, so it already
finished with its own outcome whether or not the for loop observes it). -/
def markDone (outcomes : List TaskOutcome) (batch : List Nat)
    (sts : List FinalStatus) : List FinalStatus :=
  batch.foldl (fun acc i => acc.set i (applyOutcome (outcomes.getD i defaultOutcome))) sts

/-- Cleanup, lines 198 to 200 and the finally block of lines 204 to 208:
every task not yet done is cancelled and then awaited through gather
with return_exceptions set, so each still-running task reaches a
terminal state determined by its cancellation response, and whatever
that response produced is discarded.  The index argument tracks the
position so the response function can differ per task. -/
def finalizeFrom (noise : Nat → CancelResponse) : Nat → List FinalStatus → List FinalStatus
  | _, [] => []
  | k, s :: rest =>
    (match s with
     | .running =>
       (match noise k with
        | .ack => FinalStatus.cancelled
        | .noisyError e => FinalStatus.failed e
        | .finished v => FinalStatus.succeeded v)
     | s => s) :: finalizeFrom noise (k + 1) rest

/-- Cleanup of the whole task list from index zero. -/
def finalizeAll (noise : Nat → CancelResponse) (sts : List FinalStatus) : List FinalStatus :=
  finalizeFrom noise 0 sts

/-- The wait-any loop of lines 186 to 203 together with the cleanup of
lines 198 to 200 and 204 to 208.  The completion schedule is the list of
done batches successive asyncio.wait calls deliver, each batch listed in
the iteration order of the done set.  A batch whose scan finds a success
returns that value after cancelling and awaiting everything still
pending; a batch whose scan hits a non-Exception error lets it propagate
through the finally block, which also cancels and awaits; a batch of
ordinary failures only removes those tasks from pending.  An exhausted
schedule means pending emptied with no winner: the RuntimeError of line
203 is raised and the finally block finds nothing left to cancel. -/
def waitLoop (outcomes : List TaskOutcome) (noise : Nat → CancelResponse) :
    List (List Nat) → List FinalStatus → RaceResult × List FinalStatus
  | [], sts => (.aggregateError "All staggered tasks failed", finalizeAll noise sts)
  | b :: rest, sts =>
    match scanBatch outcomes b with
    | some r => (r, finalizeAll noise (markDone outcomes b sts))
    | none => waitLoop outcomes noise rest (markDone outcomes b sts)

/-- Everything observable about one invocation of the race: the launch
trace, the returned or raised result, and the terminal status of every
candidate task when the call is over. -/
structure RaceRun where
  started : List (Nat × ℚ)
  result : RaceResult
  finalStatuses : List FinalStatus
deriving DecidableEq, Repr

/-- The fallback shim, lines 174 to 208: launch every factory with the
stagger loop, then drive the wait-any loop over the given completion
schedule with the given cancellation responses. -/
def fallback_staggered_race (outcomes : List TaskOutcome) (interval : ℚ)
    (batches : List (List Nat)) (noise : Nat → CancelResponse) : RaceRun :=
  let r := waitLoop outcomes noise batches (outcomes.map fun _ => FinalStatus.running)
  { started := launchStarts outcomes interval 0 0
    result := r.fst
    finalStatuses := r.snd }

/-- run_staggered_race, lines 139 to 171, on the fallback path taken
when asyncio.staggered_race is unavailable: an empty factory list raises
the ValueError of line 163 before anything is scheduled; otherwise the
fallback shim runs. -/
def run_staggered_race (outcomes : List TaskOutcome) (interval : ℚ)
    (batches : List (List Nat)) (noise : Nat → CancelResponse) : RaceRun :=
  match outcomes with
  | [] =>
    { started := []
      result := .configError "staggered race requires at least one candidate"
      finalStatuses := [] }
  | o :: rest => fallback_staggered_race (o :: rest) interval batches noise

/-- The interval default of line 142 of the source. -/
def defaultInterval : ℚ := 1/1000

/-- Boolean test that an outcome is an ordinary failure. -/
def isFailureOutcome : TaskOutcome → Bool
  | .failure _ => true
  | _ => false

/-- A completion schedule is valid for n tasks when its batches list
every task index exactly once: every created task eventually reaches the
done set of exactly one asyncio.wait call. -/
def ValidSchedule (n : Nat) (batches : List (List Nat)) : Prop :=
  List.Perm batches.flatten (List.range n)

instance (n : Nat) (batches : List (List Nat)) : Decidable (ValidSchedule n batches) :=
  List.decidablePerm batches.flatten (List.range n)

/-- The scan of a concatenation first scans the front batch and, when
that batch holds only ordinary failures, continues with the rest. -/
theorem scanJoin_append (outcomes : List TaskOutcome) (xs ys : List Nat) :
    scanJoin outcomes (xs ++ ys) = (scanBatch outcomes xs).getD (scanJoin outcomes ys) := by
  induction xs with
  | nil => simp [scanBatch]
  | cons i rest ih =>
    simp only [List.cons_append, scanJoin, scanBatch]
    cases outcomes.getD i defaultOutcome <;> simp [ih]

/-- The wait-any loop returns exactly the scan of the concatenated
completion schedule, whatever the status bookkeeping does. -/
theorem waitLoop_fst (outcomes : List TaskOutcome) (noise : Nat → CancelResponse) :
    ∀ (batches : List (List Nat)) (sts : List FinalStatus),
      (waitLoop outcomes noise batches sts).fst = scanJoin outcomes batches.flatten := by
  intro batches
  induction batches with
  | nil => intro sts; simp [waitLoop, scanJoin]
  | cons b rest ih =>
    intro sts
    simp only [waitLoop, List.flatten_cons, scanJoin_append]
    cases h : scanBatch outcomes b <;> simp [h, ih]

/-- Cleanup leaves no task in the running state. -/
theorem finalizeFrom_no_running (noise : Nat → CancelResponse) :
    ∀ (sts : List FinalStatus) (k : Nat) (s : FinalStatus),
      s ∈ finalizeFrom noise k sts → s ≠ .running := by
  intro sts
  induction sts with
  | nil => intro k s hs; simp [finalizeFrom] at hs
  | cons a rest ih =>
    intro k s hs
    simp only [finalizeFrom, List.mem_cons] at hs
    rcases hs with hs | hs
    · subst hs
      cases a <;> simp
      cases noise k <;> simp
    · exact ih (k + 1) s hs

/-- After the wait-any loop (every exit path runs the cleanup of the
finally block), no task status is still running. -/
theorem waitLoop_no_running (outcomes : List TaskOutcome) (noise : Nat → CancelResponse) :
    ∀ (batches : List (List Nat)) (sts : List FinalStatus) (s : FinalStatus),
      s ∈ (waitLoop outcomes noise batches sts).snd → s ≠ .running := by
  intro batches
  induction batches with
  | nil =>
    intro sts s hs
    exact finalizeFrom_no_running noise sts 0 s hs
  | cons b rest ih =>
    intro sts s hs
    simp only [waitLoop] at hs
    cases h : scanBatch outcomes b
    · rw [h] at hs
      exact ih (markDone outcomes b sts) s hs
    · rw [h] at hs
      exact finalizeFrom_no_running noise (markDone outcomes b sts) 0 s hs

/-- The launch loop starts candidates idx, idx+1, ... in order: the
index components of its trace are an arithmetic range. -/
theorem launchStarts_map_fst {α : Type} (fs : List α) (interval : ℚ) :
    ∀ (idx : Nat) (t : ℚ),
      (launchStarts fs interval idx t).map Prod.fst = List.range' idx fs.length := by
  induction fs with
  | nil => intro idx t; simp [launchStarts]
  | cons a rest ih =>
    intro idx t
    simp [launchStarts, ih, List.range'_succ]

/-- With a zero interval the launch trace starts every candidate at the
initial instant, in index order. -/
theorem launchStarts_zero {α : Type} (fs : List α) :
    ∀ (idx : Nat) (t : ℚ),
      launchStarts fs 0 idx t = (List.range' idx fs.length).map (fun i => (i, t)) := by
  induction fs with
  | nil => intro idx t; simp [launchStarts]
  | cons a rest ih =>
    intro idx t
    simp only [launchStarts, List.length_cons, List.range'_succ, List.map_cons, add_zero]
    rw [ih]

/-- A lookup that yields a success is in range. -/
theorem lt_length_of_getD_success (outcomes : List TaskOutcome) (i : Nat) (v : String)
    (h : outcomes.getD i defaultOutcome = .success v) : i < outcomes.length := by
  by_contra hlt
  rw [List.getD_eq_default] at h
  · exact TaskOutcome.noConfusion h
  · omega

/-- A lookup that yields a non-Exception error is in range. -/
theorem lt_length_of_getD_baseError (outcomes : List TaskOutcome) (i : Nat) (e : String)
    (h : outcomes.getD i defaultOutcome = .baseError e) : i < outcomes.length := by
  by_contra hlt
  rw [List.getD_eq_default] at h
  · exact TaskOutcome.noConfusion h
  · omega

/-- Scanning a list of task indices in which index i succeeds and every
other in-range index fails yields the success value of i. -/
theorem scanJoin_unique_success (outcomes : List TaskOutcome) (i : Nat) (v : String)
    (hi : outcomes.getD i defaultOutcome = .success v)
    (hothers : ∀ j, j < outcomes.length → j ≠ i →
      isFailureOutcome (outcomes.getD j defaultOutcome) = true) :
    ∀ js : List Nat, i ∈ js → (∀ j ∈ js, j < outcomes.length) →
      scanJoin outcomes js = .value v := by
  intro js
  induction js with
  | nil => intro hmem; simp at hmem
  | cons j rest ih =>
    intro hmem hbound
    by_cases hj : j = i
    · subst hj
      simp only [scanJoin, hi]
    · have hjf := hothers j (hbound j (List.mem_cons_self j rest)) hj
      have hirest : i ∈ rest := by
        rcases List.mem_cons.mp hmem with h | h
        · exact absurd h.symm hj
        · exact h
      cases hcase : outcomes.getD j defaultOutcome with
      | success w => rw [hcase] at hjf; simp [isFailureOutcome] at hjf
      | baseError e => rw [hcase] at hjf; simp [isFailureOutcome] at hjf
      | failure e =>
        simp only [scanJoin, hcase]
        exact ih hirest (fun x hx => hbound x (List.mem_cons_of_mem j hx))

/-- Scanning a list of task indices that all hold ordinary failures
reaches the aggregate RuntimeError. -/
theorem scanJoin_all_failures (outcomes : List TaskOutcome) :
    ∀ js : List Nat,
      (∀ j ∈ js, isFailureOutcome (outcomes.getD j defaultOutcome) = true) →
      scanJoin outcomes js = .aggregateError "All staggered tasks failed" := by
  intro js
  induction js with
  | nil => intro h; simp [scanJoin]
  | cons j rest ih =>
    intro h
    have hjf := h j (List.mem_cons_self j rest)
    cases hcase : outcomes.getD j defaultOutcome with
    | success w => rw [hcase] at hjf; simp [isFailureOutcome] at hjf
    | baseError e => rw [hcase] at hjf; simp [isFailureOutcome] at hjf
    | failure e =>
      simp only [scanJoin, hcase]
      exact ih (fun x hx => h x (List.mem_cons_of_mem j hx))

/-- Scanning a prefix of ordinary failures continues with the rest. -/
theorem scanJoin_failure_prefix (outcomes : List TaskOutcome) :
    ∀ (pre rest : List Nat),
      (∀ j ∈ pre, isFailureOutcome (outcomes.getD j defaultOutcome) = true) →
      scanJoin outcomes (pre ++ rest) = scanJoin outcomes rest := by
  intro pre
  induction pre with
  | nil => intro rest h; simp
  | cons j tl ih =>
    intro rest h
    have hjf := h j (List.mem_cons_self j tl)
    cases hcase : outcomes.getD j defaultOutcome with
    | success w => rw [hcase] at hjf; simp [isFailureOutcome] at hjf
    | baseError e => rw [hcase] at hjf; simp [isFailureOutcome] at hjf
    | failure e =>
      simp only [List.cons_append, scanJoin, hcase]
      exact ih rest (fun x hx => h x (List.mem_cons_of_mem j hx))

/-- On a non-empty factory list the result of the race is the scan of
the concatenated completion schedule. -/
theorem run_result_eq_scanJoin (o : TaskOutcome) (os : List TaskOutcome) (interval : ℚ)
    (batches : List (List Nat)) (noise : Nat → CancelResponse) :
    (run_staggered_race (o :: os) interval batches noise).result
      = scanJoin (o :: os) batches.flatten := by
  simp only [run_staggered_race, fallback_staggered_race]
  exact waitLoop_fst (o :: os) noise batches _

/-- On any input the index components of the launch trace of the race
are exactly 0 .. N-1 in order, where N is the candidate count: the
launch loop consults nothing but the list. -/
theorem run_started_map_fst (outcomes : List TaskOutcome) (interval : ℚ)
    (batches : List (List Nat)) (noise : Nat → CancelResponse) :
    (run_staggered_race outcomes interval batches noise).started.map Prod.fst
      = List.range outcomes.length := by
  cases outcomes with
  | nil => simp [run_staggered_race]
  | cons o os =>
    show (launchStarts (o :: os) interval 0 0).map Prod.fst = _
    rw [launchStarts_map_fst, List.range_eq_range']

example : run_staggered_race [] 0 [] (fun _ => .ack) =
    { started := []
      result := .configError "staggered race requires at least one candidate"
      finalStatuses := [] } := by decide

example : (run_staggered_race [.failure "a", .success "w"] 0 [[0], [1]] (fun _ => .ack)).result
    = .value "w" := by decide

example : (run_staggered_race [.failure "a", .failure "b"] 0 [[0, 1]] (fun _ => .ack)).result
    = .aggregateError "All staggered tasks failed" := by decide

example : (run_staggered_race [.success "a", .failure "b"] defaultInterval [[0], [1]]
    (fun _ => .ack)).started = [(0, 0), (1, 1/1000)] := by
  simp [run_staggered_race, fallback_staggered_race, launchStarts, defaultInterval]

example : (run_staggered_race [.success "a", .failure "b"] 0 [[0], [1]]
    (fun _ => .ack)).finalStatuses = [.succeeded "a", .cancelled] := by decide

/-- Claim C1: for every non-empty candidate list in which exactly one
candidate, at index i, eventually succeeds and every other candidate
fails, and regardless of the order in which the candidates finish (any
valid completion schedule), the race returns the value produced by the
candidate at index i. -/
theorem race_unique_success_wins (outcomes : List TaskOutcome) (interval : ℚ)
    (batches : List (List Nat)) (noise : Nat → CancelResponse) (i : Nat) (v : String)
    (hvalid : ValidSchedule outcomes.length batches)
    (hi : outcomes.getD i defaultOutcome = .success v)
    (hothers : ∀ j, j < outcomes.length → j ≠ i →
      isFailureOutcome (outcomes.getD j defaultOutcome) = true) :
    (run_staggered_race outcomes interval batches noise).result = .value v := by
  have hilt : i < outcomes.length := lt_length_of_getD_success outcomes i v hi
  cases outcomes with
  | nil => simp at hilt
  | cons o os =>
    rw [run_result_eq_scanJoin]
    exact scanJoin_unique_success (o :: os) i v hi hothers batches.flatten
      (hvalid.mem_iff.mpr (List.mem_range.mpr hilt))
      (fun j hj => List.mem_range.mp (hvalid.mem_iff.mp hj))

/-- Witness for C1 on a concrete three-candidate race in which only
candidate 1 succeeds and the completion order is 2, then 0, then 1. -/
theorem race_unique_success_wins_witness :
    ValidSchedule 3 [[2], [0, 1]]
    ∧ (run_staggered_race [.failure "a", .success "w", .failure "c"] 0 [[2], [0, 1]]
        (fun _ => .ack)).result = .value "w" :=
  ⟨by decide, race_unique_success_wins _ _ _ _ 1 "w" (by decide) (by decide) (by decide)⟩

/-- Claim C2, counterexample: the fallback raises a plain RuntimeError
with a constant message when every candidate fails, carrying no
candidate-to-error mapping at all.  Two all-failing races with pairwise
different candidate errors raise identical values, so the raised failure
cannot carry each index mapped to that candidate's own error, and it
carries zero entries rather than N. -/
theorem race_aggregate_mapping_counterexample :
    (run_staggered_race [.failure "a", .failure "b"] 0 [[0], [1]] (fun _ => .ack)).result
      = (run_staggered_race [.failure "x", .failure "y"] 0 [[0], [1]] (fun _ => .ack)).result
    ∧ (run_staggered_race [.failure "a", .failure "b"] 0 [[0], [1]] (fun _ => .ack)).result
      = .aggregateError "All staggered tasks failed" := by
  constructor <;> decide

/-- Claim C2 as amended: for every candidate list in which every
candidate fails and every valid completion schedule, the race raises the
single RuntimeError of line 203 with the constant message, which carries
no per-candidate error information. -/
theorem race_all_fail_aggregate (outcomes : List TaskOutcome) (interval : ℚ)
    (batches : List (List Nat)) (noise : Nat → CancelResponse)
    (hne : outcomes ≠ [])
    (hvalid : ValidSchedule outcomes.length batches)
    (hall : ∀ j, j < outcomes.length →
      isFailureOutcome (outcomes.getD j defaultOutcome) = true) :
    (run_staggered_race outcomes interval batches noise).result
      = .aggregateError "All staggered tasks failed" := by
  cases outcomes with
  | nil => exact absurd rfl hne
  | cons o os =>
    rw [run_result_eq_scanJoin]
    exact scanJoin_all_failures (o :: os) batches.flatten
      (fun j hj => hall j (List.mem_range.mp (hvalid.mem_iff.mp hj)))

/-- Witness for the amended C2 on a concrete two-candidate race in which
both candidates fail. -/
theorem race_all_fail_aggregate_witness :
    ValidSchedule 2 [[0], [1]]
    ∧ (run_staggered_race [.failure "a", .failure "b"] 0 [[0], [1]]
        (fun _ => .ack)).result = .aggregateError "All staggered tasks failed" :=
  ⟨by decide, race_all_fail_aggregate _ _ _ _ (by decide) (by decide) (by decide)⟩

/-- Claim C3, counterexample: with the positive default interval and a
race that candidate 0 wins in the very first wake-up, candidate 1 is
nevertheless started, because the launch loop of lines 181 to 184 starts
every candidate unconditionally and never consults the race state. -/
theorem race_preempt_counterexample :
    0 < defaultInterval
    ∧ (run_staggered_race [.success "w", .failure "b"] defaultInterval [[0], [1]]
        (fun _ => .ack)).result = .value "w"
    ∧ (1 : Nat) ∈ (run_staggered_race [.success "w", .failure "b"] defaultInterval [[0], [1]]
        (fun _ => .ack)).started.map Prod.fst := by
  refine ⟨by norm_num [defaultInterval], by decide, ?_⟩
  simp [run_staggered_race, fallback_staggered_race, launchStarts]

/-- Claim C3 as amended: every candidate is always started.  The launch
phase runs to completion before the wait-any loop begins and consults
nothing, so a winner never prevents a not-yet-started candidate from
starting; it only causes the loser to be cancelled after it was started.
No candidate is started after the race concludes only because every
start precedes the wait-any loop. -/
theorem race_all_candidates_started (outcomes : List TaskOutcome) (interval : ℚ)
    (batches : List (List Nat)) (noise : Nat → CancelResponse) :
    (run_staggered_race outcomes interval batches noise).started.map Prod.fst
      = List.range outcomes.length :=
  run_started_map_fst outcomes interval batches noise

/-- Claim C4: for every interval, invoking the race with an empty
candidate list raises the ValueError of line 163 synchronously; the
launch trace is empty, so zero factories were invoked and zero
operations scheduled. -/
theorem race_empty_configuration_error (interval : ℚ) (batches : List (List Nat))
    (noise : Nat → CancelResponse) :
    (run_staggered_race [] interval batches noise).result
      = .configError "staggered race requires at least one candidate"
    ∧ (run_staggered_race [] interval batches noise).started = [] := by
  constructor <;> rfl

/-- Claim C5: after every race invocation concludes, by whatever exit
path, no candidate task is left in the running state: the cleanup of
lines 198 to 200 and of the finally block at lines 204 to 208 cancels
every still-running task and awaits it before the call returns. -/
theorem race_no_running_after_conclusion (outcomes : List TaskOutcome) (interval : ℚ)
    (batches : List (List Nat)) (noise : Nat → CancelResponse) :
    ∀ s ∈ (run_staggered_race outcomes interval batches noise).finalStatuses,
      s ≠ .running := by
  cases outcomes with
  | nil => intro s hs; simp [run_staggered_race] at hs
  | cons o os =>
    intro s hs
    exact waitLoop_no_running (o :: os) noise batches _ s hs

/-- Witness for C5 on a concrete race whose loser ends up cancelled. -/
theorem race_no_running_after_conclusion_witness :
    FinalStatus.cancelled ∈ (run_staggered_race [.success "w", .failure "b"] 0 [[0], [1]]
      (fun _ => .ack)).finalStatuses
    ∧ FinalStatus.cancelled ≠ FinalStatus.running :=
  ⟨by decide, race_no_running_after_conclusion [.success "w", .failure "b"] 0 [[0], [1]]
    (fun _ => .ack) FinalStatus.cancelled (by decide)⟩

/-- Claim C6, counterexample: in a single wake-up batch in which both
candidate 0 and candidate 1 succeeded, with the done set iterated in the
order 1 then 0 (set iteration order is arbitrary in the source), the
race returns the value of candidate 1, not of the smallest succeeding
index 0.  The schedule is valid: both indices complete exactly once. -/
theorem race_tiebreak_counterexample :
    (run_staggered_race [.success "a", .success "b"] 0 [[1, 0]] (fun _ => .ack)).result
      = .value "b"
    ∧ ValidSchedule 2 [[1, 0]] := by
  constructor <;> decide

/-- Claim C6 as amended: the winner is the first success in the
iteration order of the wake-up batches, which the source leaves
arbitrary (the for loop of line 193 iterates a set); the race result is
exactly the scan of the concatenated batches in that order, so a
smallest-index tie-break is not guaranteed. -/
theorem race_scan_order (outcomes : List TaskOutcome) (interval : ℚ)
    (batches : List (List Nat)) (noise : Nat → CancelResponse)
    (h : outcomes ≠ []) :
    (run_staggered_race outcomes interval batches noise).result
      = scanJoin outcomes batches.flatten := by
  cases outcomes with
  | nil => exact absurd rfl h
  | cons o os => exact run_result_eq_scanJoin o os interval batches noise

/-- Witness for the amended C6 on the simultaneous-success batch. -/
theorem race_scan_order_witness :
    ([TaskOutcome.success "a", TaskOutcome.success "b"] ≠ ([] : List TaskOutcome))
    ∧ (run_staggered_race [.success "a", .success "b"] 0 [[1, 0]] (fun _ => .ack)).result
      = scanJoin [.success "a", .success "b"] ([[1, 0]] : List (List Nat)).flatten :=
  ⟨by decide, race_scan_order _ _ _ _ (by decide)⟩

/-- Claim C7: the result of the race never depends on what cancelled
losers do while unwinding: whether each cancelled task acknowledges,
raises some other error, or completes anyway, the returned or raised
outcome of the race call is identical, because both gather calls pass
return_exceptions and their results are discarded. -/
theorem race_cancellation_noise_suppressed (outcomes : List TaskOutcome) (interval : ℚ)
    (batches : List (List Nat)) (noise noise' : Nat → CancelResponse) :
    (run_staggered_race outcomes interval batches noise).result
      = (run_staggered_race outcomes interval batches noise').result := by
  cases outcomes with
  | nil => rfl
  | cons o os => rw [run_result_eq_scanJoin, run_result_eq_scanJoin]

/-- Claim C8, counterexample: an unspecified interval defaults to the
literal 0.001 of line 142, which is not zero, so a defaulted interval
does not start every candidate immediately: candidate 1 starts one
default interval after candidate 0. -/
theorem race_default_interval_counterexample :
    defaultInterval ≠ 0
    ∧ (run_staggered_race [.failure "a", .failure "b"] defaultInterval [[0], [1]]
        (fun _ => .ack)).started = [(0, 0), (1, defaultInterval)] := by
  constructor
  · norm_num [defaultInterval]
  · simp [run_staggered_race, fallback_staggered_race, launchStarts]

/-- Claim C8 as amended: an explicit zero interval starts every
candidate immediately, in index order, with every start at the initial
instant; but the defaulted interval is the literal 0.001 of line 142,
not zero, so a defaulted race delays successive starts by 0.001. -/
theorem race_zero_interval_no_delay (outcomes : List TaskOutcome)
    (batches : List (List Nat)) (noise : Nat → CancelResponse) :
    (run_staggered_race outcomes 0 batches noise).started
      = (List.range outcomes.length).map (fun i => (i, (0 : ℚ)))
    ∧ defaultInterval = 1/1000 := by
  constructor
  · cases outcomes with
    | nil => simp [run_staggered_race]
    | cons o os =>
      show launchStarts (o :: os) 0 0 0 = _
      rw [launchStarts_zero, List.range_eq_range']
  · rfl

/-- Claim C9: candidates are started in index order and never
reordered: at every point of the launch phase (every prefix of the
launch trace), whenever candidate k has been started, every candidate
with a smaller index has already been started. -/
theorem race_starts_in_index_order (outcomes : List TaskOutcome) (interval : ℚ)
    (batches : List (List Nat)) (noise : Nat → CancelResponse) (m j k : Nat)
    (hjk : j < k)
    (hk : k ∈ ((run_staggered_race outcomes interval batches noise).started.map
        Prod.fst).take m) :
    j ∈ ((run_staggered_race outcomes interval batches noise).started.map
        Prod.fst).take m := by
  rw [run_started_map_fst, List.take_range] at hk ⊢
  rw [List.mem_range] at hk ⊢
  omega

/-- Witness for C9 on a concrete two-candidate launch prefix. -/
theorem race_starts_in_index_order_witness :
    (1 : Nat) ∈ (((run_staggered_race [TaskOutcome.failure "a", TaskOutcome.failure "b"]
        0 [[0], [1]] (fun _ => CancelResponse.ack)).started.map Prod.fst).take 2)
    ∧ (0 : Nat) ∈ (((run_staggered_race [TaskOutcome.failure "a", TaskOutcome.failure "b"]
        0 [[0], [1]] (fun _ => CancelResponse.ack)).started.map Prod.fst).take 2) :=
  ⟨by decide, race_starts_in_index_order _ _ _ _ 2 0 1 (by decide) (by decide)⟩

/-- Claim C10: a candidate that terminates with an error outside the
ordinary Exception class caught at line 196 (for example an externally
injected cancellation) is not recorded as a candidate failure; the
wait-any loop re-raises it and the race call propagates it directly to
the caller, even when later candidates are still pending and might
succeed, after the finally block has cancelled and awaited every
remaining task. -/
theorem race_base_error_propagates (outcomes : List TaskOutcome) (interval : ℚ)
    (batches : List (List Nat)) (noise : Nat → CancelResponse)
    (i : Nat) (e : String) (pre post : List Nat)
    (hjoin : batches.flatten = pre ++ i :: post)
    (hpre : ∀ j ∈ pre, isFailureOutcome (outcomes.getD j defaultOutcome) = true)
    (hi : outcomes.getD i defaultOutcome = .baseError e) :
    (run_staggered_race outcomes interval batches noise).result = .propagated e
    ∧ ∀ s ∈ (run_staggered_race outcomes interval batches noise).finalStatuses,
        s ≠ .running := by
  have hilt : i < outcomes.length := lt_length_of_getD_baseError outcomes i e hi
  cases outcomes with
  | nil => simp at hilt
  | cons o os =>
    constructor
    · rw [run_result_eq_scanJoin, hjoin, scanJoin_failure_prefix (o :: os) pre (i :: post) hpre]
      simp only [scanJoin, hi]
    · intro s hs
      exact waitLoop_no_running (o :: os) noise batches _ s hs

/-- Witness for C10: candidate 0 fails, candidate 1 ends in an external
cancellation observed in the same batch, candidate 2 would succeed
later; the race propagates the external error. -/
theorem race_base_error_propagates_witness :
    (([[0, 1], [2]] : List (List Nat)).flatten = [0] ++ 1 :: [2])
    ∧ (run_staggered_race [.failure "f", .baseError "ext", .success "s"] 0 [[0, 1], [2]]
        (fun _ => .ack)).result = .propagated "ext" :=
  ⟨by decide,
    (race_base_error_propagates _ _ _ _ 1 "ext" [0] [2] (by decide) (by decide) (by decide)).1⟩
